import Mathlib

/-!
Shallow embedding of the admission-control core of the repository
(`cmd/api/middleware.go`, `cmd/api/server.go`) and of the pagination/sort
filter helpers (`internal/data/filters.go`).

Time is modelled as rational seconds; token counts are rationals, matching
the floating-point token arithmetic of the bucket. The client registry is an
association list from client key (the host part of the remote address) to
per-client state, mutated only inside the middleware's single mutex, so an
admission check is one atomic step on the registry.
-/

namespace AdmissionControl

/-- Modelled from the spec: the limiter configuration surface
(`enabled: bool`, `burst: int` bucket capacity, `rps: float` refill rate),
sourced externally (CLI/env); the parsing code is not part of `src/`.
The middleware itself reads only `enabled`. -/
structure LimiterConfig where
  enabled : Bool
  burst : ℤ
  rps : ℚ
  deriving Repr, DecidableEq

/-- Per-client state held in the registry: the token-bucket fields
(`tokens`, `lastRefill`) of the client's `rate.Limiter` together with the
`lastSeen` timestamp of the middleware's `client` struct
(`cmd/api/middleware.go`, type `client`). -/
structure Client where
  tokens : ℚ
  lastRefill : ℚ
  lastSeen : ℚ
  deriving Repr, DecidableEq

/-- The refill rate (limit, tokens per second) of the limiter the middleware
creates for a new client: `rate.NewLimiter(2, 5)` at
`cmd/api/middleware.go:65` passes the constant `2`, for every
configuration. -/
def newLimiterRate (_cfg : LimiterConfig) : ℚ := 2

/-- The bucket capacity (burst) of the limiter the middleware creates for a
new client: `rate.NewLimiter(2, 5)` at `cmd/api/middleware.go:65` passes the
constant `5`, for every configuration. -/
def newLimiterBurst (_cfg : LimiterConfig) : ℚ := 5

/-- Modelled from the spec: a brand-new client starts with a full bucket
("Initial tokens = capacity"); the `rate.Limiter` internals are library code
not under `src/`. Created at the moment `now` of the first admission check,
which also sets `lastSeen`. -/
def newClient (cfg : LimiterConfig) (now : ℚ) : Client :=
  { tokens := newLimiterBurst cfg, lastRefill := now, lastSeen := now }

/-- Modelled from the spec: the refill step of the token bucket
(`golang.org/x/time/rate`, library code not under `src/`):
`elapsed = max(0, now - lastRefill)`;
`tokens = min(capacity, tokens + elapsed * refillRate)`;
`lastRefill = now`. Negative elapsed (clock skew) clamps to 0. -/
def refill (cfg : LimiterConfig) (c : Client) (now : ℚ) : Client :=
  { c with
    tokens := min (newLimiterBurst cfg)
      (c.tokens + max 0 (now - c.lastRefill) * newLimiterRate cfg),
    lastRefill := now }

/-- Modelled from the spec: `TryConsume(state, now, n) -> bool`, the
admission arithmetic of the client's `rate.Limiter` (library code not under
`src/`): refill, then if `tokens >= n` subtract `n` and allow, else deny
leaving the (refilled) tokens unchanged while `lastRefill` stays advanced
to `now`. -/
def tryConsume (cfg : LimiterConfig) (c : Client) (now : ℚ) (n : ℚ) :
    Bool × Client :=
  let c' := refill cfg c now
  if n ≤ c'.tokens then (true, { c' with tokens := c'.tokens - n })
  else (false, c')

/-- The client registry: the middleware's `clients` map, as an association
list from client key to state. All mutation happens under the single mutex
`mu`, so each admission check below is one atomic step. -/
abbrev Registry := List (String × Client)

/-- Replace the state bound to key `k` (the write-back of a mutation done
through the map entry `clients[ip]`); keys of the registry are unchanged. -/
def updateEntry (k : String) (f : Client → Client) : Registry → Registry
  | [] => []
  | (k', c) :: rest =>
      if k == k' then (k', f c) :: rest else (k', c) :: updateEntry k f rest

/-- The check-then-create step of the middleware
(`_, found := clients[ip]; if !found { clients[ip] = &client{...} }`),
atomic because it runs under the mutex: returns the client's state and the
possibly extended registry. -/
def getOrCreate (cfg : LimiterConfig) (reg : Registry) (ip : String)
    (now : ℚ) : Client × Registry :=
  match reg.lookup ip with
  | some c => (c, reg)
  | none => (newClient cfg now, (ip, newClient cfg now) :: reg)

/-- Modelled from the spec: the outcome of client-key extraction
(`net.SplitHostPort(r.RemoteAddr)`, standard-library code not under `src/`):
either the host part of the caller's address, or a failure for a malformed
address. -/
inductive KeyExtraction where
  | key (ip : String)
  | extractionError
  deriving Repr, DecidableEq

/-- What the middleware does with one request: forward it downstream
(`next.ServeHTTP`, an Allow), reject it with the rate-limit-exceeded
response (a Deny), or fail it with the server-error response. -/
inductive Outcome where
  | allow
  | deny
  | serverError
  deriving Repr, DecidableEq

/-- One admission check of the `rateLimit` middleware
(`cmd/api/middleware.go:50-80`): if the limiter is disabled the request is
forwarded untouched; otherwise a failed key extraction yields a server
error; otherwise get-or-create the client's entry, set `lastSeen = now`,
consume one token, and map the result to Allow/Deny. Returns the outcome
and the registry after the check. -/
def admitOne (cfg : LimiterConfig) (reg : Registry) (kr : KeyExtraction)
    (now : ℚ) : Outcome × Registry :=
  if cfg.enabled then
    match kr with
    | .extractionError => (.serverError, reg)
    | .key ip =>
        let cr := getOrCreate cfg reg ip now
        let p := tryConsume cfg { cr.1 with lastSeen := now } now 1
        let reg' := updateEntry ip (fun _ => p.2) cr.2
        (if p.1 then .allow else .deny, reg')
  else (.allow, reg)

/-- `k` successive admission checks for the same request key at the same
instant `now` — an instantaneous burst, serialized by the mutex in arrival
order. Returns the outcomes in order and the final registry. -/
def admitRepeat (cfg : LimiterConfig) (reg : Registry) (kr : KeyExtraction)
    (now : ℚ) : ℕ → List Outcome × Registry
  | 0 => ([], reg)
  | Nat.succ k =>
      let r1 := admitOne cfg reg kr now
      let rest := admitRepeat cfg r1.2 kr now k
      (r1.1 :: rest.1, rest.2)

/-- A sequence of admission checks at arbitrary keys and times, run left to
right; returns the final registry. -/
def admitSeq (cfg : LimiterConfig) (reg : Registry) :
    List (KeyExtraction × ℚ) → Registry
  | [] => reg
  | (kr, now) :: rest => admitSeq cfg (admitOne cfg reg kr now).2 rest

/-- The sweeper's staleness threshold: `3 * time.Minute`
(`cmd/api/middleware.go:41`), in seconds. -/
def staleThreshold : ℚ := 180

/-- One cycle of the background sweeper (`cmd/api/middleware.go:36-48`):
under the mutex, delete every entry with `now - lastSeen > 3 minutes`,
keep the rest. -/
def sweep (reg : Registry) (now : ℚ) : Registry :=
  reg.filter (fun kc => decide (now - kc.2.lastSeen ≤ staleThreshold))

/-- Number of registry entries bound to key `ip`. -/
def countKey (ip : String) (reg : Registry) : ℕ :=
  (reg.filter (fun kc => kc.1 == ip)).length

lemma lookup_updateEntry_self (k : String) (f : Client → Client)
    (l : Registry) : (updateEntry k f l).lookup k = (l.lookup k).map f := by
  induction l with
  | nil => simp [updateEntry]
  | cons p rest ih =>
      obtain ⟨k', c⟩ := p
      by_cases h : (k == k') = true
      · simp [updateEntry, h, List.lookup]
      · simp [updateEntry, h, List.lookup, ih]

lemma countKey_updateEntry (ip k : String) (f : Client → Client)
    (l : Registry) : countKey ip (updateEntry k f l) = countKey ip l := by
  induction l with
  | nil => simp [updateEntry]
  | cons p rest ih =>
      obtain ⟨k', c⟩ := p
      have ih' : (List.filter (fun kc => kc.1 == ip) (updateEntry k f rest)).length
          = (List.filter (fun kc => kc.1 == ip) rest).length := by
        simpa [countKey] using ih
      by_cases h : (k == k') = true
      · cases hki : (k' == ip) <;>
          simp [updateEntry, h, countKey, List.filter, hki]
      · cases hki : (k' == ip) <;>
          simp [updateEntry, h, countKey, List.filter, hki, ih']

lemma lookup_eq_none_of_countKey_eq_zero (ip : String) (l : Registry)
    (h : countKey ip l = 0) : l.lookup ip = none := by
  induction l with
  | nil => simp
  | cons p rest ih =>
      obtain ⟨k', c⟩ := p
      by_cases hk : (k' == ip) = true
      · exfalso
        simp [countKey, List.filter, hk] at h
      · have hik : (ip == k') = false := by
          apply Bool.eq_false_iff.mpr
          intro hc
          have heq : ip = k' := by simpa using hc
          subst heq
          simp at hk
        have htail : countKey ip rest = 0 := by
          simpa [countKey, List.filter, hk] using h
        simpa [List.lookup, hik] using ih htail

lemma admit_found (cfg : LimiterConfig) (reg : Registry) (ip : String)
    (now : ℚ) (c : Client) (hen : cfg.enabled = true)
    (h : reg.lookup ip = some c) :
    admitOne cfg reg (.key ip) now =
      (if (tryConsume cfg { c with lastSeen := now } now 1).1 then
        Outcome.allow else Outcome.deny,
       updateEntry ip
         (fun _ => (tryConsume cfg { c with lastSeen := now } now 1).2) reg) := by
  simp [admitOne, hen, getOrCreate, h]

lemma tryConsume_at_now (cfg : LimiterConfig) (c : Client) (now : ℚ)
    (hr : c.lastRefill = now) (hle : c.tokens ≤ 5) :
    tryConsume cfg c now 1 =
      if 1 ≤ c.tokens then
        (true, { c with tokens := c.tokens - 1, lastRefill := now })
      else (false, { c with lastRefill := now }) := by
  unfold tryConsume refill
  simp only [newLimiterBurst, newLimiterRate, hr, sub_self, max_self,
    zero_mul, add_zero, min_eq_right hle]

lemma admit_found_succ (cfg : LimiterConfig) (reg : Registry) (ip : String)
    (now : ℚ) (c : Client) (m : ℕ) (hen : cfg.enabled = true)
    (h : reg.lookup ip = some c) (hm : m + 1 ≤ 5)
    (ht : c.tokens = ((m + 1 : ℕ) : ℚ)) (hr : c.lastRefill = now) :
    admitOne cfg reg (.key ip) now =
      (Outcome.allow,
       updateEntry ip (fun _ => ⟨(m : ℚ), now, now⟩) reg) := by
  have hle : ({ c with lastSeen := now } : Client).tokens ≤ 5 := by
    simp only [ht]
    exact_mod_cast hm
  have h1 : (1 : ℚ) ≤ ({ c with lastSeen := now } : Client).tokens := by
    simp only [ht]
    exact_mod_cast Nat.succ_le_succ (Nat.zero_le m)
  rw [admit_found cfg reg ip now c hen h,
    tryConsume_at_now cfg { c with lastSeen := now } now hr hle]
  simp only [h1, if_true]
  have htok : ({ c with lastSeen := now } : Client).tokens - 1 = (m : ℚ) := by
    simp only [ht]
    push_cast
    ring
  simp [htok]

lemma admit_found_zero (cfg : LimiterConfig) (reg : Registry) (ip : String)
    (now : ℚ) (c : Client) (hen : cfg.enabled = true)
    (h : reg.lookup ip = some c) (ht : c.tokens = 0) (hr : c.lastRefill = now) :
    admitOne cfg reg (.key ip) now =
      (Outcome.deny,
       updateEntry ip (fun _ => ⟨(0 : ℚ), now, now⟩) reg) := by
  have hle : ({ c with lastSeen := now } : Client).tokens ≤ 5 := by
    simp only [ht]; norm_num
  have h1 : ¬ (1 : ℚ) ≤ ({ c with lastSeen := now } : Client).tokens := by
    simp only [ht]; norm_num
  rw [admit_found cfg reg ip now c hen h,
    tryConsume_at_now cfg { c with lastSeen := now } now hr hle]
  norm_num [ht]

lemma admit_new (cfg : LimiterConfig) (reg : Registry) (ip : String)
    (now : ℚ) (hen : cfg.enabled = true) (h : reg.lookup ip = none) :
    admitOne cfg reg (.key ip) now =
      (Outcome.allow, (ip, ⟨(4 : ℚ), now, now⟩) :: reg) := by
  have hnew : ({ newClient cfg now with lastSeen := now } : Client)
      = newClient cfg now := by
    simp [newClient]
  have hle : (newClient cfg now).tokens ≤ 5 := by
    norm_num [newClient, newLimiterBurst]
  have hr : (newClient cfg now).lastRefill = now := by simp [newClient]
  have h1 : (1 : ℚ) ≤ (newClient cfg now).tokens := by
    norm_num [newClient, newLimiterBurst]
  simp only [admitOne, hen, if_true, getOrCreate, h]
  rw [hnew, tryConsume_at_now cfg (newClient cfg now) now hr hle]
  simp only [h1, if_true]
  norm_num [updateEntry, newClient, newLimiterBurst]

lemma admitRepeat_drain (cfg : LimiterConfig) (ip : String) (now : ℚ)
    (hen : cfg.enabled = true) :
    ∀ (k m : ℕ) (reg : Registry) (c : Client), m ≤ 5 →
      reg.lookup ip = some c → c.tokens = (m : ℚ) → c.lastRefill = now →
      (admitRepeat cfg reg (.key ip) now k).1 =
        List.replicate (min k m) Outcome.allow ++
          List.replicate (k - m) Outcome.deny := by
  intro k
  induction k with
  | zero => intro m reg c _ _ _ _; simp [admitRepeat]
  | succ k ih =>
      intro m reg c hm h ht hr
      cases m with
      | zero =>
          have hstep := admit_found_zero cfg reg ip now c hen h (by simpa using ht) hr
          have hlook : (updateEntry ip
              (fun _ => (⟨(0 : ℚ), now, now⟩ : Client)) reg).lookup ip
              = some ⟨(0 : ℚ), now, now⟩ := by
            rw [lookup_updateEntry_self, h]
            simp
          have hrest := ih 0 _ _ (Nat.zero_le 5) hlook rfl rfl
          simp [admitRepeat, hstep, hrest, List.replicate_succ]
      | succ m' =>
          have hstep := admit_found_succ cfg reg ip now c m' hen h hm ht hr
          have hlook : (updateEntry ip
              (fun _ => (⟨(m' : ℚ), now, now⟩ : Client)) reg).lookup ip
              = some ⟨(m' : ℚ), now, now⟩ := by
            rw [lookup_updateEntry_self, h]
            simp
          have hrest := ih m' _ _ (Nat.le_of_succ_le hm) hlook rfl rfl
          have hmin : min (k + 1) (m' + 1) = min k m' + 1 := Nat.succ_min_succ k m'
          have hsub : (k + 1) - (m' + 1) = k - m' := Nat.succ_sub_succ k m'
          simp [admitRepeat, hstep, hrest, hmin, hsub, List.replicate_succ]

/-- The per-client bounds invariant: the token count is never negative and
never exceeds the capacity of the bucket the middleware creates. -/
def ClientInv (cfg : LimiterConfig) (c : Client) : Prop :=
  0 ≤ c.tokens ∧ c.tokens ≤ newLimiterBurst cfg

lemma tryConsume_inv (cfg : LimiterConfig) (c : Client) (now n : ℚ)
    (hn : 0 ≤ n) (h : 0 ≤ c.tokens) :
    ClientInv cfg (tryConsume cfg c now n).2 := by
  have he : 0 ≤ max 0 (now - c.lastRefill) * newLimiterRate cfg := by
    apply mul_nonneg (le_max_left 0 _)
    norm_num [newLimiterRate]
  have h0 : 0 ≤ (refill cfg c now).tokens := by
    simp only [refill]
    exact le_min (by norm_num [newLimiterBurst]) (by linarith)
  have h5 : (refill cfg c now).tokens ≤ newLimiterBurst cfg :=
    min_le_left _ _
  unfold tryConsume
  by_cases hc : n ≤ (refill cfg c now).tokens
  · simp only [hc, if_true]
    exact ⟨by simpa using sub_nonneg.mpr hc, by simp; linarith⟩
  · simp only [hc, if_false]
    exact ⟨h0, h5⟩

lemma lookup_some_mem (l : Registry) (a : String) (c : Client)
    (h : l.lookup a = some c) : ∃ k, (k, c) ∈ l := by
  induction l with
  | nil => simp at h
  | cons p rest ih =>
      obtain ⟨k', c'⟩ := p
      by_cases hk : (a == k') = true
      · refine ⟨k', ?_⟩
        simp [List.lookup, hk] at h
        simp [h]
      · have := by simpa [List.lookup, hk] using h
        obtain ⟨k, hmem⟩ := ih this
        exact ⟨k, List.mem_cons_of_mem _ hmem⟩

lemma mem_updateEntry_of_inv {P : Client → Prop} (k : String)
    (f : Client → Client) (l : Registry) (hl : ∀ p ∈ l, P p.2)
    (hf : ∀ c, P (f c)) : ∀ p ∈ updateEntry k f l, P p.2 := by
  induction l with
  | nil => simp [updateEntry]
  | cons q rest ih =>
      obtain ⟨k', c⟩ := q
      by_cases h : (k == k') = true
      · simp only [updateEntry, h, if_true]
        intro p hp
        rcases List.mem_cons.mp hp with h1 | h1
        · rw [h1]; exact hf c
        · exact hl p (List.mem_cons_of_mem _ h1)
      · simp only [updateEntry, h, if_false]
        intro p hp
        rcases List.mem_cons.mp hp with h1 | h1
        · rw [h1]; exact hl (k', c) (List.mem_cons_self _ _)
        · exact ih (fun q hq => hl q (List.mem_cons_of_mem _ hq)) p h1

lemma admit_inv (cfg : LimiterConfig) (reg : Registry) (kr : KeyExtraction)
    (now : ℚ) (hreg : ∀ p ∈ reg, ClientInv cfg p.2) :
    ∀ p ∈ (admitOne cfg reg kr now).2, ClientInv cfg p.2 := by
  by_cases hen : cfg.enabled = true
  · cases kr with
    | extractionError => simpa [admitOne, hen] using hreg
    | key ip =>
        simp only [admitOne, hen, if_true]
        rcases hl : reg.lookup ip with _ | c
        · -- new client: registry extended, then entry overwritten
          simp only [getOrCreate, hl]
          apply mem_updateEntry_of_inv
          · intro p hp
            rcases List.mem_cons.mp hp with h1 | h1
            · rw [h1]
              constructor <;> norm_num [newClient, newLimiterBurst]
            · exact hreg p h1
          · intro c0
            apply tryConsume_inv cfg _ now 1 (by norm_num)
            norm_num [newClient, newLimiterBurst]
        · -- existing client
          simp only [getOrCreate, hl]
          obtain ⟨k0, hmem⟩ := lookup_some_mem reg ip c hl
          have hc : ClientInv cfg c := hreg (k0, c) hmem
          apply mem_updateEntry_of_inv _ _ _ hreg
          intro c0
          apply tryConsume_inv cfg _ now 1 (by norm_num)
          simpa using hc.1
  · have hb : cfg.enabled = false := Bool.eq_false_iff.mpr hen
    simpa [admitOne, hb] using hreg

/-- C1: with the limiter enabled, a brand-new client key issuing `k`
admission checks at one instant gets exactly the first `min k 5` allowed
(5 is the capacity of the bucket the middleware creates) and every later
one denied; in particular for `k ≤ 5` all are allowed. -/
theorem c1_new_client_burst (cfg : LimiterConfig) (reg : Registry)
    (ip : String) (now : ℚ) (k : ℕ) (hen : cfg.enabled = true)
    (hnew : reg.lookup ip = none) :
    (admitRepeat cfg reg (.key ip) now k).1 =
      List.replicate (min k 5) Outcome.allow ++
        List.replicate (k - 5) Outcome.deny := by
  cases k with
  | zero => simp [admitRepeat]
  | succ k =>
      have hstep := admit_new cfg reg ip now hen hnew
      have hlook : ((ip, (⟨(4 : ℚ), now, now⟩ : Client)) :: reg).lookup ip
          = some ⟨(4 : ℚ), now, now⟩ := by simp [List.lookup]
      have hrest := admitRepeat_drain cfg ip now hen k 4 _ _ (by norm_num)
        hlook (by norm_num) rfl
      have hmin : min (k + 1) 5 = min k 4 + 1 := by omega
      have hsub : (k + 1) - 5 = k - 4 := by omega
      simp [admitRepeat, hstep, hrest, hmin, hsub, List.replicate_succ]

/-- C1 witness: an enabled configuration, an empty registry and a burst of 7
instantaneous requests from the fresh key "a": the first 5 are allowed, the
last 2 denied. -/
theorem c1_new_client_burst_witness :
    ((⟨true, 2, 5⟩ : LimiterConfig).enabled = true ∧
      ([] : Registry).lookup "a" = none) ∧
    (admitRepeat ⟨true, 2, 5⟩ [] (.key "a") 0 7).1 =
      List.replicate (min 7 5) Outcome.allow ++
        List.replicate (7 - 5) Outcome.deny :=
  ⟨⟨rfl, rfl⟩, c1_new_client_burst ⟨true, 2, 5⟩ [] "a" 0 7 rfl rfl⟩

/-- C2: over any sequence of admission checks at arbitrary keys and times,
every client entry of the registry keeps `0 ≤ tokens ≤ capacity`, where the
capacity is that of the bucket the middleware creates. -/
theorem c2_tokens_bounded (cfg : LimiterConfig) (reg : Registry)
    (reqs : List (KeyExtraction × ℚ))
    (hreg : ∀ p ∈ reg, ClientInv cfg p.2) :
    ∀ p ∈ admitSeq cfg reg reqs, ClientInv cfg p.2 := by
  induction reqs generalizing reg with
  | nil => simpa [admitSeq] using hreg
  | cons q rest ih =>
      obtain ⟨kr, now⟩ := q
      exact ih _ (admit_inv cfg reg kr now hreg)

/-- C2 witness: starting from the empty registry, a concrete burst of six
checks for key "a" and one for key "b" leaves every entry with tokens in
`[0, 5]`. -/
theorem c2_tokens_bounded_witness :
    (∀ p ∈ ([] : Registry), ClientInv ⟨true, 2, 5⟩ p.2) ∧
    (∀ p ∈ admitSeq ⟨true, 2, 5⟩ []
        [(.key "a", 0), (.key "a", 0), (.key "a", 0), (.key "a", 0),
         (.key "a", 0), (.key "a", 0), (.key "b", 1)],
      ClientInv ⟨true, 2, 5⟩ p.2) :=
  ⟨by simp, c2_tokens_bounded ⟨true, 2, 5⟩ [] _ (by simp)⟩

/-- C4: with the limiter disabled, every request in a burst of any size is
forwarded downstream (Allow) and the registry is left exactly as it was:
no entry is created and no tokens or lastSeen field changes. -/
theorem c4_disabled_bypass (cfg : LimiterConfig) (reg : Registry)
    (kr : KeyExtraction) (now : ℚ) (k : ℕ) (hdis : cfg.enabled = false) :
    admitRepeat cfg reg kr now k = (List.replicate k Outcome.allow, reg) := by
  induction k with
  | zero => simp [admitRepeat]
  | succ k ih => simp [admitRepeat, admitOne, hdis, ih, List.replicate_succ]

/-- C4 witness: a disabled configuration, a registry with one client and a
burst of 3 requests: all three are allowed and the registry is untouched. -/
theorem c4_disabled_bypass_witness :
    ((⟨false, 2, 5⟩ : LimiterConfig).enabled = false) ∧
    admitRepeat ⟨false, 2, 5⟩ [("a", ⟨1, 0, 0⟩)] (.key "b") 9 3 =
      (List.replicate 3 Outcome.allow, [("a", ⟨1, 0, 0⟩)]) :=
  ⟨rfl, c4_disabled_bypass ⟨false, 2, 5⟩ [("a", ⟨1, 0, 0⟩)] (.key "b") 9 3 rfl⟩

/-- C7: with the limiter enabled, a request whose remote address cannot be
split into host and port gets the server-error response (so the downstream
handler is not invoked) and the registry — all keys, tokens and lastSeen
values — is exactly what it was before the request. -/
theorem c7_key_extraction_error (cfg : LimiterConfig) (reg : Registry)
    (now : ℚ) (hen : cfg.enabled = true) :
    admitOne cfg reg .extractionError now = (Outcome.serverError, reg) := by
  simp [admitOne, hen]

/-- C7 witness: an enabled configuration and a one-entry registry: the
malformed-address request yields a server error and the identical
registry. -/
theorem c7_key_extraction_error_witness :
    ((⟨true, 2, 5⟩ : LimiterConfig).enabled = true) ∧
    admitOne ⟨true, 2, 5⟩ [("a", ⟨3, 7, 7⟩)] .extractionError 9 =
      (Outcome.serverError, [("a", ⟨3, 7, 7⟩)]) :=
  ⟨rfl, c7_key_extraction_error ⟨true, 2, 5⟩ [("a", ⟨3, 7, 7⟩)] 9 rfl⟩

/-- C9: two admission checks at the same instant for the same previously
unseen key — serialized by the registry mutex — leave exactly one entry for
that key in the registry: the check-then-create is atomic, so no duplicate
entry and no lost update. -/
theorem c9_one_entry_per_key (cfg : LimiterConfig) (reg : Registry)
    (ip : String) (now : ℚ) (hen : cfg.enabled = true)
    (h0 : countKey ip reg = 0) :
    countKey ip (admitOne cfg (admitOne cfg reg (.key ip) now).2 (.key ip) now).2
      = 1 := by
  have hnone : reg.lookup ip = none :=
    lookup_eq_none_of_countKey_eq_zero ip reg h0
  have h1 := admit_new cfg reg ip now hen hnone
  rw [h1]
  have hlook : ((ip, (⟨(4 : ℚ), now, now⟩ : Client)) :: reg).lookup ip
      = some ⟨(4 : ℚ), now, now⟩ := by simp [List.lookup]
  rw [admit_found cfg _ ip now _ hen hlook]
  rw [countKey_updateEntry]
  simp [countKey, List.filter]
  simpa [countKey] using h0

/-- C9 witness: from the empty registry, two simultaneous first requests
for key "a" produce exactly one entry for "a". -/
theorem c9_one_entry_per_key_witness :
    ((⟨true, 2, 5⟩ : LimiterConfig).enabled = true ∧
      countKey "a" ([] : Registry) = 0) ∧
    countKey "a"
      (admitOne ⟨true, 2, 5⟩ (admitOne ⟨true, 2, 5⟩ [] (.key "a") 0).2
        (.key "a") 0).2 = 1 :=
  ⟨⟨rfl, rfl⟩, c9_one_entry_per_key ⟨true, 2, 5⟩ [] "a" 0 rfl rfl⟩

/-- C5: when the bucket holds fewer tokens than requested after the refill,
TryConsume returns false, leaves the token count at its refilled value (the
deny subtracts nothing), and still advances `lastRefill` to `now`. -/
theorem c5_deny_leaves_tokens (cfg : LimiterConfig) (c : Client)
    (now n : ℚ) (h : (refill cfg c now).tokens < n) :
    (tryConsume cfg c now n).1 = false ∧
    (tryConsume cfg c now n).2.tokens = (refill cfg c now).tokens ∧
    (tryConsume cfg c now n).2.lastRefill = now := by
  have hc : ¬ n ≤ (refill cfg c now).tokens := not_le.mpr h
  refine ⟨?_, ?_, ?_⟩ <;> (simp only [tryConsume, hc, if_false]; try simp [refill])

/-- C5 witness: an empty bucket (`tokens = 0`, `lastRefill = 0`) asked for
one token at `now = 0`: the refill yields 0 < 1, the call denies, tokens
stay 0 and `lastRefill` is 0 = now. -/
theorem c5_deny_leaves_tokens_witness :
    ((refill ⟨true, 2, 5⟩ ⟨0, 0, 0⟩ 0).tokens < 1) ∧
    ((tryConsume ⟨true, 2, 5⟩ ⟨0, 0, 0⟩ 0 1).1 = false ∧
     (tryConsume ⟨true, 2, 5⟩ ⟨0, 0, 0⟩ 0 1).2.tokens =
       (refill ⟨true, 2, 5⟩ ⟨0, 0, 0⟩ 0).tokens ∧
     (tryConsume ⟨true, 2, 5⟩ ⟨0, 0, 0⟩ 0 1).2.lastRefill = 0) :=
  ⟨by norm_num [refill, newLimiterBurst, newLimiterRate],
   c5_deny_leaves_tokens ⟨true, 2, 5⟩ ⟨0, 0, 0⟩ 0 1
     (by norm_num [refill, newLimiterBurst, newLimiterRate])⟩

/-- C6: a sweep at time `now` keeps exactly the fresh entries: an entry is
in the swept registry iff it was there before and its `lastSeen` lies within
the stale threshold (3 minutes) of `now`; equivalently, every entry idle
longer than the threshold is absent and every other entry survives. -/
theorem c6_sweep_exact (reg : Registry) (now : ℚ) (k : String) (c : Client) :
    (k, c) ∈ sweep reg now ↔
      (k, c) ∈ reg ∧ now - c.lastSeen ≤ staleThreshold := by
  simp [sweep, List.mem_filter]

/-- C3 counterexample: for the configuration `{enabled, burst 7, rps 3}`
the bucket the middleware creates does not get capacity 7 and rate 3 — the
creation site passes the constants `rate.NewLimiter(2, 5)`. -/
theorem c3_config_counterexample :
    ¬ (newLimiterBurst ⟨true, 7, 3⟩ =
         ((⟨true, 7, 3⟩ : LimiterConfig).burst : ℚ) ∧
       newLimiterRate ⟨true, 7, 3⟩ = (⟨true, 7, 3⟩ : LimiterConfig).rps) := by
  intro h
  have := h.1
  norm_num [newLimiterBurst] at this

/-- C3 amended: the per-client bucket the middleware creates is independent
of the externally supplied configuration — for every configuration its
capacity is the constant 5 and its refill rate the constant 2, and the
brand-new client state is accordingly created with 5 tokens. -/
theorem c3_constant_limiter_params (cfg : LimiterConfig) (now : ℚ) :
    newLimiterBurst cfg = 5 ∧ newLimiterRate cfg = 2 ∧
    (newClient cfg now).tokens = 5 := by
  refine ⟨rfl, rfl, ?_⟩
  simp [newClient, newLimiterBurst]

end AdmissionControl

namespace Server

/-- Errors `serve` (`cmd/api/server.go`) can return: the drain-timeout error
from the shutdown bound, or a listener failure other than
`http.ErrServerClosed`. -/
inductive ServeError where
  | drainTimeout
  | listenFailure
  deriving Repr, DecidableEq

/-- The result of `apiServer.ListenAndServe()` as `serve` observes it:
`http.ErrServerClosed` once `Shutdown` was initiated, or some other
failure. -/
inductive ListenResult where
  | serverClosed
  | failure
  deriving Repr, DecidableEq

/-- Whether the graceful shutdown drained all in-flight work within the
bound, or the bound elapsed first. -/
inductive ShutdownOutcome where
  | completed
  | timedOut
  deriving Repr, DecidableEq

/-- The shutdown bound: `context.WithTimeout(context.Background(),
30*time.Second)` (`cmd/api/server.go:37`), in seconds. -/
def shutdownTimeoutSeconds : ℕ := 30

/-- Modelled from the spec: the single value `apiServer.Shutdown(ctx)` sends
on the `shutdownError` channel (`http.Server.Shutdown` is standard-library
code not under `src/`): nil when all in-flight work completes within the
bound, the drain-timeout error when the bound elapses first. -/
def shutdownChanResult : ShutdownOutcome → Option ServeError
  | .completed => none
  | .timedOut => some .drainTimeout

/-- The control flow of `serve` (`cmd/api/server.go:14-60`) around the
listener: a listen error other than `http.ErrServerClosed` is returned
as-is; otherwise `serve` performs the one receive from the `shutdownError`
channel and returns the received error when it is non-nil, else nil. -/
def serve (lr : ListenResult) (o : ShutdownOutcome) : Option ServeError :=
  match lr with
  | .failure => some .listenFailure
  | .serverClosed =>
      match shutdownChanResult o with
      | some e => some e
      | none => none

/-- C8: after a shutdown signal (the listener returned
`http.ErrServerClosed`), `serve` returns the single value received from the
shutdown channel: nil when the graceful shutdown drained all in-flight work
within the 30-second bound, and the drain-timeout error when the bound
elapsed first. -/
theorem c8_shutdown_outcome :
    serve ListenResult.serverClosed ShutdownOutcome.completed = none ∧
    serve ListenResult.serverClosed ShutdownOutcome.timedOut =
      some ServeError.drainTimeout ∧
    shutdownTimeoutSeconds = 30 :=
  ⟨rfl, rfl, rfl⟩

end Server

namespace FiltersData

/-- `strings.TrimPrefix(sort, "-")` as `sortColumn` uses it: remove one
leading '-' when present, otherwise return the string unchanged. -/
def trimDash (s : String) : String :=
  match s.data with
  | '-' :: rest => String.mk rest
  | _ => s

/-- The `Filters` struct of `internal/data/filters.go`: pagination and
sorting parameters together with the safe list of permitted sort keys. -/
structure Filters where
  page : ℤ
  pageSize : ℤ
  sort : String
  sortSafeList : List String
  deriving Repr, DecidableEq

/-- Modelled from the spec: `validator.PermittedValue(value, list...)` of
the `internal/validator` package (declared outside `src/`): membership of
the value in the permitted list. -/
def permittedValue (value : String) (l : List String) : Bool :=
  l.contains value

/-- Modelled from the spec: the `internal/validator` error collection
(declared outside `src/`), an association list from field key to the first
message recorded for it. -/
structure Validator where
  errors : List (String × String)
  deriving Repr, DecidableEq

/-- Modelled from the spec: `validator.New()` — a validator with no
errors. -/
def newValidator : Validator := ⟨[]⟩

/-- Modelled from the spec: `Validator.AddError(key, message)` records the
message unless the key already has one. -/
def Validator.addError (v : Validator) (k msg : String) : Validator :=
  if (v.errors.lookup k).isSome then v else ⟨(k, msg) :: v.errors⟩

/-- Modelled from the spec: `Validator.Check(ok, key, message)` records the
error exactly when the condition is false. -/
def Validator.check (v : Validator) (ok : Bool) (k msg : String) :
    Validator :=
  if ok then v else v.addError k msg

/-- Modelled from the spec: `Validator.IsEmpty()` — no error was
recorded. -/
def Validator.isEmpty (v : Validator) : Bool := v.errors.isEmpty

/-- `ValidateFilters` (`internal/data/filters.go:27-33`): the five checks on
page, page size and sort run in order on validator `v`. -/
def validateFilters (v : Validator) (f : Filters) : Validator :=
  ((((v.check (decide (0 < f.page)) "page" "must be greater than zero").check
      (decide (f.page ≤ 500)) "page" "must be a maximum of 500").check
      (decide (0 < f.pageSize)) "page_size"
        "must be greater than zero").check
      (decide (f.pageSize ≤ 100)) "page_size"
        "must be a maximum of 100").check
      (permittedValue f.sort f.sortSafeList) "sort" "invalid sort value"

/-- The loop of `Filters.sortColumn`: scan the safe list and at the first
element equal to the sort key return the key with a leading '-' stripped;
reaching the end of the list is the panic branch, modelled as `none`. -/
def sortColumnLoop (sort : String) : List String → Option String
  | [] => none
  | s :: rest =>
      if sort == s then some (trimDash sort) else sortColumnLoop sort rest

/-- `Filters.sortColumn` (`internal/data/filters.go:51-58`); `none` stands
for the `panic("unsafe sort parameter: ...")` branch. -/
def sortColumn (f : Filters) : Option String :=
  sortColumnLoop f.sort f.sortSafeList

lemma check_errors_nil {v : Validator} {ok : Bool} {k m : String}
    (h : (v.check ok k m).errors = []) : v.errors = [] ∧ ok = true := by
  cases ok with
  | true => exact ⟨h, rfl⟩
  | false =>
      exfalso
      unfold Validator.check Validator.addError at h
      by_cases hl : (v.errors.lookup k).isSome = true
      · simp [hl] at h
        rw [h] at hl
        simp at hl
      · simp [hl] at h

lemma sortColumnLoop_of_contains (sort : String) (l : List String)
    (h : l.contains sort = true) :
    sortColumnLoop sort l = some (trimDash sort) := by
  induction l with
  | nil => simp at h
  | cons s rest ih =>
      by_cases hs : (sort == s) = true
      · simp [sortColumnLoop, hs]
      · have hrest : rest.contains sort = true := by
          simpa [List.contains, List.elem, hs] using h
        simp [sortColumnLoop, hs, ih hrest]

/-- C10: for every `Filters` value a fresh validator accepts in
`ValidateFilters` (no error recorded), `sortColumn` never reaches its panic
branch: it returns the sort key with any leading '-' stripped, so SQL-query
construction in `GetAll` cannot fault on a validated filter. -/
theorem c10_validated_sort_safe (f : Filters)
    (h : (validateFilters newValidator f).isEmpty = true) :
    sortColumn f = some (trimDash f.sort) := by
  have hnil : (validateFilters newValidator f).errors = [] := by
    have := h
    unfold Validator.isEmpty at this
    exact List.isEmpty_iff.mp this
  have hsortok : permittedValue f.sort f.sortSafeList = true :=
    (check_errors_nil hnil).2
  exact sortColumnLoop_of_contains f.sort f.sortSafeList hsortok

/-- C10 witness: the filter `{page 1, page size 10, sort "-id"}` with the
safe list used by the handlers passes validation, and `sortColumn` returns
"id" — the sort key with the leading '-' stripped. -/
theorem c10_validated_sort_safe_witness :
    (validateFilters newValidator ⟨1, 10, "-id",
        ["id", "rating", "-id", "-rating"]⟩).isEmpty = true ∧
    sortColumn ⟨1, 10, "-id", ["id", "rating", "-id", "-rating"]⟩ =
      some (trimDash "-id") :=
  ⟨by decide,
   c10_validated_sort_safe ⟨1, 10, "-id", ["id", "rating", "-id", "-rating"]⟩
     (by decide)⟩

end FiltersData
